import Mathlib

/-!
Shallow embedding of src/zebra.py, a streaming decoder for the ZEBRA
scientific data-interchange format, together with proofs about the three
decoding stages (physical framing, logical-record assembly, bank walking)
and the module's top-level name binding.

The Python source targets Python 2 (it imports print_function from
__future__), so the bytearray-to-str comparison on line 83 of the source
is modelled as a content comparison, as it behaves there.

Errors raised by the Python code (ValueError from ctypes from_buffer on a
short slice, AssertionError from assert statements, IOError, ValueError
for an unknown record type) are modelled by one error enumeration with a
constructor per raise site.
-/

namespace Zebra

/-- Decidable equality for Except results, used to settle concrete runs. -/
instance {e a : Type} [DecidableEq e] [DecidableEq a] : DecidableEq (Except e a) := fun x y => by
  cases x <;> cases y
  case error.error e1 e2 => exact decidable_of_iff (e1 = e2) (by simp)
  case error.ok => exact isFalse (by simp)
  case ok.error => exact isFalse (by simp)
  case ok.ok v1 v2 => exact decidable_of_iff (v1 = v2) (by simp)

/-- Error raised by some site of zebra.py; one constructor per raise site. -/
inductive PyError where
  /-- ValueError from SteeringBlock.from_buffer_copy on fewer than 32 bytes. -/
  | shortSteeringBlock
  /-- AssertionError from the physical-record length assert on line 60. -/
  | physicalSizeAssert
  /-- ValueError from Control.from_buffer on fewer than 8 bytes. -/
  | shortControlWord
  /-- ValueError from Pilot.from_buffer on fewer than 40 bytes. -/
  | shortPilot
  /-- AssertionError from the logical-record length assert on line 133. -/
  | recordSizeAssert
  /-- IOError raised for a padding record whose size field is zero. -/
  | emptyPadding
  /-- ValueError raised for an unknown control-word record type. -/
  | unknownRecordType
  /-- ValueError from IOControl.from_buffer_copy on fewer than 4 bytes. -/
  | shortIOControl
  /-- ValueError from BytesIO.seek to a negative position. -/
  | negativeSeek
  /-- ValueError from Bank.from_buffer_copy on fewer than 36 bytes. -/
  | shortBankHeader
  /-- AssertionError from the bank payload length assert on line 163. -/
  | bankDataAssert
  /-- Artificial marker for exhaustion of the evaluation fuel of iter_banks
  (the Python loop can run forever when IOControl.size rewinds the cursor;
  this constructor is returned in place of that divergence). -/
  | fuelOut
deriving DecidableEq, Repr

/-- Byte at index i of a byte list, as a Nat; 0 past the end.  All decode
functions are applied only behind an explicit length guard mirroring the
length check ctypes performs, so the default is never observed. -/
def byteAt (l : List UInt8) (i : Nat) : Nat :=
  (l.getD i 0).toNat

/-- Big-endian 32-bit word starting at byte offset i. -/
def beWordAt (l : List UInt8) (i : Nat) : Nat :=
  byteAt l i * 16777216 + byteAt l (i + 1) * 65536 + byteAt l (i + 2) * 256 + byteAt l (i + 3)

/-- SteeringBlock from zebra.py lines 6-15: four stamp words, a packed
flags word (three 1-bit flags, 5 padding bits, a 24-bit size, all packed
most-significant-bit-first), then count, skip and fast_blocks words. -/
structure SteeringBlock where
  stamp : List Nat
  emergency_stop_block : Nat
  end_of_run : Nat
  start_of_run : Nat
  padding : Nat
  size : Nat
  count : Nat
  skip : Nat
  fast_blocks : Nat
deriving DecidableEq, Repr

/-- Decode a SteeringBlock from 32 bytes (big-endian, MSB-first bit fields). -/
def decodeSteeringBlock (b : List UInt8) : SteeringBlock :=
  let w4 := beWordAt b 16
  { stamp := [beWordAt b 0, beWordAt b 4, beWordAt b 8, beWordAt b 12]
    emergency_stop_block := w4 / 2 ^ 31
    end_of_run := w4 / 2 ^ 30 % 2
    start_of_run := w4 / 2 ^ 29 % 2
    padding := w4 / 2 ^ 24 % 2 ^ 5
    size := w4 % 2 ^ 24
    count := beWordAt b 20
    skip := beWordAt b 24
    fast_blocks := beWordAt b 28 }

/-- Control word from zebra.py lines 17-19: size and type words. -/
structure Control where
  size : Nat
  type : Nat
deriving DecidableEq, Repr

/-- Decode a Control from the first 8 bytes of a buffer. -/
def decodeControl (b : List UInt8) : Control :=
  { size := beWordAt b 0, type := beWordAt b 4 }

/-- Pilot from zebra.py lines 21-31; the check field is a c_float whose
raw 32 bits are kept undecoded (its numeric value is never used). -/
structure Pilot where
  check : Nat
  version : Nat
  process : Nat
  reserve : Nat
  size_text : Nat
  size_seg : Nat
  size_rel : Nat
  size_bank : Nat
  entry_link : Nat
  size_header : Nat
deriving DecidableEq, Repr

/-- Decode a Pilot from a 40-byte slice. -/
def decodePilot (b : List UInt8) : Pilot :=
  { check := beWordAt b 0
    version := beWordAt b 4
    process := beWordAt b 8
    reserve := beWordAt b 12
    size_text := beWordAt b 16
    size_seg := beWordAt b 20
    size_rel := beWordAt b 24
    size_bank := beWordAt b 28
    entry_link := beWordAt b 32
    size_header := beWordAt b 36 }

/-- Bank header from zebra.py lines 33-42; name is 4 raw bytes. -/
structure Bank where
  next : Nat
  up : Nat
  origin : Nat
  id : Nat
  name : List UInt8
  links : Nat
  slinks : Nat
  data : Nat
  status : Nat
deriving DecidableEq, Repr

/-- Decode a Bank from a 36-byte slice. -/
def decodeBank (b : List UInt8) : Bank :=
  { next := beWordAt b 0
    up := beWordAt b 4
    origin := beWordAt b 8
    id := beWordAt b 12
    name := (b.drop 16).take 4
    links := beWordAt b 20
    slinks := beWordAt b 24
    data := beWordAt b 28
    status := beWordAt b 32 }

/-- IOControl from zebra.py lines 44-46: one big-endian word holding a
16-bit char field in the high bits and a 16-bit size field in the low bits. -/
structure IOControl where
  char : Nat
  size : Nat
deriving DecidableEq, Repr

/-- Decode an IOControl from a 4-byte slice. -/
def decodeIOControl (b : List UInt8) : IOControl :=
  { char := beWordAt b 0 / 65536, size := beWordAt b 0 % 65536 }

/-- Python slice l[i:] for a possibly negative Int index i: a nonnegative
start drops that many elements (clamped at the end); a negative start
counts from the end of the list (clamped at the front). -/
def pySliceFrom (l : List UInt8) (i : Int) : List UInt8 :=
  if 0 ≤ i then l.drop i.toNat else l.drop (l.length - (-i).toNat)

/-- Physical payload size in bytes declared by a steering block header,
as computed on line 58 of zebra.py: (size*(fast_blocks+1)-8)*4.  The
value is an Int because the Python expression can be negative. -/
def payloadSizeInt (hdr : List UInt8) : Int :=
  ((decodeSteeringBlock hdr).size * ((decodeSteeringBlock hdr).fast_blocks + 1) - 8 : Int) * 4

/-- One run of the zebraio generator of zebra.py lines 48-67, starting
with the stream contents data, the current resync flag skip, and the
values the caller sends back after each yield (sends k is the value the
generator receives after yielding record k; plain next() sends False).
Per step: if the stream is exhausted the generator returns; otherwise it
reads 32 bytes as a SteeringBlock (ValueError if short), reads the
computed payload size (AssertionError if the read comes back short, in
particular whenever the size is negative), and yields either the full
payload or, in resync mode, the slice payload[(skip-8)*4:]. -/
def zebraGo (data : List UInt8) (skip : Bool) (sends : Nat → Bool) (k : Nat) :
    Except PyError (List (List UInt8)) :=
  if data = [] then .ok []
  else
    if (data.take 32).length < 32 then .error .shortSteeringBlock
    else
      let sb := decodeSteeringBlock (data.take 32)
      let sizeInt : Int := ((sb.size : Int) * ((sb.fast_blocks : Int) + 1) - 8) * 4
      if sizeInt < 0 then .error .physicalSizeAssert
      else if (data.drop 32).length < sizeInt.toNat then .error .physicalSizeAssert
      else
        let pr := (data.drop 32).take sizeInt.toNat
        let emitted := if skip then pySliceFrom pr (((sb.skip : Int) - 8) * 4) else pr
        (zebraGo ((data.drop 32).drop sizeInt.toNat) (sends k) sends (k + 1)).map
          (fun out => emitted :: out)
termination_by data.length
decreasing_by
  simp only [List.length_drop, List.length_take] at *
  omega

/-- The zebraio generator run from the start of a stream: initial resync
flag False, with sends giving the value sent back after each yield. -/
def zebraio (data : List UInt8) (sends : Nat → Bool) : Except PyError (List (List UInt8)) :=
  zebraGo data false sends 0

/-- Four zero bytes: the one-word alignment padding recognised on line 83
of zebra.py. -/
def zeros4 : List UInt8 := [0, 0, 0, 0]

/-- Combined size of a chunk list: total bytes plus chunk count.  Used as
part of the termination measure of the logical-record loop. -/
def chunkWeight (chunks : List (List UInt8)) : Nat :=
  (chunks.map List.length).sum + chunks.length

/-- The refill loop of zebra.py lines 91-99: while the buffer holds fewer
than target bytes, pull the next physical chunk and append it; if the
chunk source is exhausted, stop with the buffer still short. -/
def fillBuf : List (List UInt8) → List UInt8 → Nat → List (List UInt8) × List UInt8
  | chunks, buf, target =>
    if target ≤ buf.length then (chunks, buf)
    else
      match chunks with
      | [] => ([], buf)
      | c :: cs => fillBuf cs (buf ++ c) target

theorem fillBuf_nil (buf : List UInt8) (t : Nat) : fillBuf [] buf t = ([], buf) := by
  rw [fillBuf]
  split <;> rfl

theorem fillBuf_cons (c : List UInt8) (cs : List (List UInt8)) (buf : List UInt8) (t : Nat) :
    fillBuf (c :: cs) buf t =
      if t ≤ buf.length then (c :: cs, buf) else fillBuf cs (buf ++ c) t := by
  rw [fillBuf]

theorem fillBuf_weight (chunks : List (List UInt8)) (buf : List UInt8) (t : Nat) :
    chunkWeight (fillBuf chunks buf t).1 + (fillBuf chunks buf t).2.length ≤
      chunkWeight chunks + buf.length := by
  induction chunks generalizing buf with
  | nil => rw [fillBuf_nil]
  | cons c cs ih =>
    rw [fillBuf_cons]
    split
    · exact Nat.le_refl _
    · calc chunkWeight (fillBuf cs (buf ++ c) t).1 + (fillBuf cs (buf ++ c) t).2.length ≤
            chunkWeight cs + (buf ++ c).length := ih (buf ++ c)
        _ ≤ chunkWeight (c :: cs) + buf.length := by
            simp [chunkWeight, List.length_append]
            omega

theorem fillBuf_buflen (chunks : List (List UInt8)) (buf : List UInt8) (t : Nat) :
    buf.length ≤ (fillBuf chunks buf t).2.length := by
  induction chunks generalizing buf with
  | nil => rw [fillBuf_nil]
  | cons c cs ih =>
    rw [fillBuf_cons]
    split
    · exact Nat.le_refl _
    · calc buf.length ≤ (buf ++ c).length := by simp [List.length_append]
        _ ≤ (fillBuf cs (buf ++ c) t).2.length := ih (buf ++ c)

/-- Word offset skipped at the head of a logical-record candidate, from
line 135 of zebra.py: the sum of the size_header, size_seg, size_rel and
size_text fields of the Pilot decoded from bytes [8,48) of the buffer. -/
def pilotSkipTo (buf : List UInt8) : Nat :=
  (decodePilot ((buf.drop 8).take 40)).size_header +
    (decodePilot ((buf.drop 8).take 40)).size_seg +
    (decodePilot ((buf.drop 8).take 40)).size_rel +
    (decodePilot ((buf.drop 8).take 40)).size_text

/-- One run of the iter_logical_records loop of zebra.py lines 69-139,
driven by a pre-computed list of physical chunks.  atTop = true models
control sitting at the top of the while loop (line 73), where fewer than
2 buffered bytes trigger a single pull from the chunk source (loop exit
on exhaustion); atTop = false models the rest of one iteration: absorb a
leading zero word (line 83), decode the Control word from the first 8
bytes (ValueError if fewer), refill while the buffer holds fewer than
size*4+10 bytes (proceeding regardless when the source is exhausted),
then dispatch on the record type: 2/3/4 decode a Pilot from bytes [8,48),
slice the candidate [48,48+(size-10)*4) (AssertionError if short), drop
its first pilotSkipTo*4 bytes, emit that and advance past the record;
5 with size at least 1 discards 8+(size-1)*4 bytes (IOError on size 0);
1 discards 8+size*4 bytes; anything else raises ValueError. -/
def ilrLoop (atTop : Bool) (chunks : List (List UInt8)) (buf : List UInt8) :
    Except PyError (List (List UInt8)) :=
  if hTop : atTop then
    if buf.length < 2 then
      match hm : chunks with
      | [] => .ok []
      | c :: cs => ilrLoop false cs (buf ++ c)
    else ilrLoop false chunks buf
  else
    if hz : buf.take 4 = zeros4 then ilrLoop true chunks (buf.drop 4)
    else if h8 : buf.length < 8 then .error .shortControlWord
    else
      if (decodeControl buf).type = 2 ∨ (decodeControl buf).type = 3 ∨
          (decodeControl buf).type = 4 then
        if (fillBuf chunks buf ((decodeControl buf).size * 4 + 10)).2.length < 48 then
          .error .shortPilot
        else if hs : (((decodeControl buf).size : Int) - 10) * 4 < 0 ∨
            (((fillBuf chunks buf ((decodeControl buf).size * 4 + 10)).2.length : Int) <
              48 + (((decodeControl buf).size : Int) - 10) * 4) then
          .error .recordSizeAssert
        else
          (ilrLoop true (fillBuf chunks buf ((decodeControl buf).size * 4 + 10)).1
              ((fillBuf chunks buf ((decodeControl buf).size * 4 + 10)).2.drop
                (48 + ((((decodeControl buf).size : Int) - 10) * 4).toNat))).map
            (fun rest =>
              ((((fillBuf chunks buf ((decodeControl buf).size * 4 + 10)).2.drop 48).take
                  ((((decodeControl buf).size : Int) - 10) * 4).toNat).drop
                (pilotSkipTo (fillBuf chunks buf ((decodeControl buf).size * 4 + 10)).2 * 4)) ::
                rest)
      else if (decodeControl buf).type = 5 then
        if 1 ≤ (decodeControl buf).size then
          ilrLoop true (fillBuf chunks buf ((decodeControl buf).size * 4 + 10)).1
            ((fillBuf chunks buf ((decodeControl buf).size * 4 + 10)).2.drop
              (8 + ((decodeControl buf).size - 1) * 4))
        else .error .emptyPadding
      else if (decodeControl buf).type = 1 then
        ilrLoop true (fillBuf chunks buf ((decodeControl buf).size * 4 + 10)).1
          ((fillBuf chunks buf ((decodeControl buf).size * 4 + 10)).2.drop
            (8 + (decodeControl buf).size * 4))
      else .error .unknownRecordType
termination_by (chunkWeight chunks + buf.length) * 2 + (if atTop then 1 else 0)
decreasing_by
  · subst hm
    simp [hTop, chunkWeight, List.length_append]
    omega
  · simp [hTop]
  · have h4 : (buf.take 4).length = 4 := by rw [hz]; rfl
    simp only [List.length_take] at h4
    simp [hTop, List.length_drop]
    omega
  · have hw := fillBuf_weight chunks buf ((decodeControl buf).size * 4 + 10)
    push_neg at hs
    simp [hTop, List.length_drop]
    omega
  · have hw := fillBuf_weight chunks buf ((decodeControl buf).size * 4 + 10)
    have hb := fillBuf_buflen chunks buf ((decodeControl buf).size * 4 + 10)
    simp [hTop, List.length_drop]
    omega
  · have hw := fillBuf_weight chunks buf ((decodeControl buf).size * 4 + 10)
    have hb := fillBuf_buflen chunks buf ((decodeControl buf).size * 4 + 10)
    simp [hTop, List.length_drop]
    omega

/-- The iter_logical_records generator of zebra.py lines 69-139, driven
by a pre-computed list of physical chunks (the zebraio driver on lines
70-99 is specialised to the chunks it yields; it is always advanced with
plain next(), so resync mode never engages). -/
def iter_logical_records (chunks : List (List UInt8)) : Except PyError (List (List UInt8)) :=
  ilrLoop true chunks []

theorem ilrLoop_top_nil (buf : List UInt8) (h : buf.length < 2) :
    ilrLoop true [] buf = .ok [] := by
  rw [ilrLoop]
  simp [h]

theorem ilrLoop_top_pull (c : List UInt8) (cs : List (List UInt8)) (buf : List UInt8)
    (h : buf.length < 2) :
    ilrLoop true (c :: cs) buf = ilrLoop false cs (buf ++ c) := by
  rw [ilrLoop]
  simp [h]

theorem ilrLoop_top_go (chunks : List (List UInt8)) (buf : List UInt8)
    (h : ¬ buf.length < 2) :
    ilrLoop true chunks buf = ilrLoop false chunks buf := by
  rw [ilrLoop.eq_def]
  simp [h]

theorem ilrLoop_strip (chunks : List (List UInt8)) (buf : List UInt8)
    (h : buf.take 4 = zeros4) :
    ilrLoop false chunks buf = ilrLoop true chunks (buf.drop 4) := by
  rw [ilrLoop.eq_def]
  simp [h]

theorem ilrLoop_short (chunks : List (List UInt8)) (buf : List UInt8)
    (h1 : ¬ buf.take 4 = zeros4) (h2 : buf.length < 8) :
    ilrLoop false chunks buf = .error .shortControlWord := by
  rw [ilrLoop.eq_def]
  simp [h1, h2]

theorem ilrLoop_unknown (chunks : List (List UInt8)) (buf : List UInt8)
    (h1 : ¬ buf.take 4 = zeros4) (h2 : ¬ buf.length < 8)
    (ht2 : (decodeControl buf).type ≠ 2) (ht3 : (decodeControl buf).type ≠ 3)
    (ht4 : (decodeControl buf).type ≠ 4) (ht5 : (decodeControl buf).type ≠ 5)
    (ht1 : (decodeControl buf).type ≠ 1) :
    ilrLoop false chunks buf = .error .unknownRecordType := by
  rw [ilrLoop.eq_def]
  simp [h1, h2, ht1, ht2, ht3, ht4, ht5]

theorem ilrLoop_pad_nil (buf : List UInt8)
    (h1 : ¬ buf.take 4 = zeros4) (h2 : ¬ buf.length < 8)
    (ht : (decodeControl buf).type = 5) (hsz : 1 ≤ (decodeControl buf).size) :
    ilrLoop false [] buf = ilrLoop true [] (buf.drop (8 + ((decodeControl buf).size - 1) * 4)) := by
  rw [ilrLoop.eq_def]
  simp [h1, h2, ht, hsz, fillBuf_nil]

theorem ilrLoop_sor_nil (buf : List UInt8)
    (h1 : ¬ buf.take 4 = zeros4) (h2 : ¬ buf.length < 8)
    (ht : (decodeControl buf).type = 1) :
    ilrLoop false [] buf = ilrLoop true [] (buf.drop (8 + (decodeControl buf).size * 4)) := by
  rw [ilrLoop.eq_def]
  simp [h1, h2, ht, fillBuf_nil]

/-- One pass of the iter_banks loop of zebra.py lines 142-164, walking a
BytesIO cursor pos over the record: while pos is below the record length,
read 4 bytes as an IOControl (ValueError if short), seek forward by
(size-12)*4 bytes relative (ValueError on a negative resulting position),
read 36 bytes as a Bank header (ValueError if short), read data*4 payload
bytes (AssertionError if short) and yield the pair.  fuel bounds the
number of iterations; the Python loop can revisit positions (a small
IOControl.size seeks backwards), so the model returns the artificial
fuelOut error where the source diverges. -/
def iterBanksGo (record : List UInt8) (pos : Nat) : Nat → Except PyError (List (Bank × List UInt8))
  | 0 => .error .fuelOut
  | fuel + 1 =>
    if record.length ≤ pos then .ok []
    else
      if ((record.drop pos).take 4).length < 4 then .error .shortIOControl
      else
        let ioc := decodeIOControl ((record.drop pos).take 4)
        if ((pos + 4 : Int) + ((ioc.size : Int) - 12) * 4) < 0 then .error .negativeSeek
        else
          let pos2 := ((pos + 4 : Int) + ((ioc.size : Int) - 12) * 4).toNat
          if ((record.drop pos2).take 36).length < 36 then .error .shortBankHeader
          else
            let bank := decodeBank ((record.drop pos2).take 36)
            if ((record.drop (pos2 + 36)).take (bank.data * 4)).length ≠ bank.data * 4 then
              .error .bankDataAssert
            else
              (iterBanksGo record (pos2 + 36 + bank.data * 4) fuel).map
                (fun rest => (bank, (record.drop (pos2 + 36)).take (bank.data * 4)) :: rest)

/-- The iter_banks generator of zebra.py lines 142-164 applied to one
logical-record payload, starting the cursor at 0.  A run over well-formed
banks advances the cursor by at least 40 bytes per yielded pair, so
length+1 units of fuel can only run out when the Python loop would not
terminate. -/
def iter_banks (record : List UInt8) : Except PyError (List (Bank × List UInt8)) :=
  iterBanksGo record 0 (record.length + 1)

/-- Top-level statement of the zebra.py module, as executed at load time:
an import statement binds names, a class statement binds its name, a def
statement first looks up every decorator name applied to it (raising
NameError on an unbound one) and then binds the function name; the final
if __name__ == main block executes only when run as a script and binds
nothing during an import. -/
inductive PyStmt where
  | importNames : List String → PyStmt
  | classDef : String → PyStmt
  | funcDef : String → List String → PyStmt
  | mainGuard : PyStmt

/-- The top-level statements of zebra.py in source order. -/
def zebraModule : List PyStmt :=
  [.importNames ["print_function"],
   .importNames ["c_uint32", "c_float", "c_char", "BigEndianStructure"],
   .importNames ["io"],
   .importNames ["logging"],
   .classDef "SteeringBlock",
   .classDef "Control",
   .classDef "Pilot",
   .classDef "Bank",
   .classDef "IOControl",
   .funcDef "zebraio" [],
   .funcDef "iter_logical_records" [],
   .funcDef "iter_banks" ["profile"],
   .funcDef "parse" [],
   .mainGuard]

/-- Execute the module top level over an environment of bound names:
returns the final environment, or the name whose lookup raises NameError. -/
def loadModule : List PyStmt → List String → Except String (List String)
  | [], env => .ok env
  | stmt :: rest, env =>
    match stmt with
    | .importNames ns => loadModule rest (env ++ ns)
    | .classDef n => loadModule rest (env ++ [n])
    | .funcDef n decos =>
      match decos.find? (fun d => ! env.contains d) with
      | some d => .error d
      | none => loadModule rest (env ++ [n])
    | .mainGuard => loadModule rest env

/-- All names the module top level ever binds, in order. -/
def moduleBinds : List PyStmt → List String
  | [] => []
  | stmt :: rest =>
    match stmt with
    | .importNames ns => ns ++ moduleBinds rest
    | .classDef n => n :: moduleBinds rest
    | .funcDef n _ => n :: moduleBinds rest
    | .mainGuard => moduleBinds rest

theorem ilrLoop_normal_nil (buf : List UInt8)
    (h1 : ¬ buf.take 4 = zeros4) (h2 : ¬ buf.length < 8)
    (hty : (decodeControl buf).type = 2 ∨ (decodeControl buf).type = 3 ∨
      (decodeControl buf).type = 4)
    (h48 : ¬ buf.length < 48)
    (hs : ¬ ((((decodeControl buf).size : Int) - 10) * 4 < 0 ∨
      ((buf.length : Int) < 48 + (((decodeControl buf).size : Int) - 10) * 4))) :
    ilrLoop false [] buf =
      (ilrLoop true []
          (buf.drop (48 + ((((decodeControl buf).size : Int) - 10) * 4).toNat))).map
        (fun rest =>
          (((buf.drop 48).take ((((decodeControl buf).size : Int) - 10) * 4).toNat).drop
            (pilotSkipTo buf * 4)) :: rest) := by
  rw [ilrLoop.eq_def]
  simp only [fillBuf_nil]
  simp [h1, h2, hty, h48, hs]

/-- A steering-block header plus payload pair is valid when the header is
exactly 32 bytes and the payload size the header declares equals the
payload length (the validity demanded of synthetic streams by the spec's
framing round-trip property). -/
def ValidPair (pr : List UInt8 × List UInt8) : Prop :=
  pr.1.length = 32 ∧ payloadSizeInt pr.1 = (pr.2.length : Int)

instance (pr : List UInt8 × List UInt8) : Decidable (ValidPair pr) := by
  unfold ValidPair
  infer_instance

/-- Concatenation of steering-block+payload pairs into one byte stream. -/
def flattenPairs : List (List UInt8 × List UInt8) → List UInt8
  | [] => []
  | pr :: rest => pr.1 ++ pr.2 ++ flattenPairs rest

/-- The chunks zebraio emits for a stream of valid pairs: each payload in
order, sliced from byte (skip-8)*4 when the previous send requested
resync (the flag for the first record is the initial skip parameter). -/
def emitList : List (List UInt8 × List UInt8) → Bool → (Nat → Bool) → Nat → List (List UInt8)
  | [], _, _, _ => []
  | pr :: rest, skip, sends, k =>
    (if skip then pySliceFrom pr.2 ((((decodeSteeringBlock pr.1).skip : Int) - 8) * 4)
     else pr.2) :: emitList rest (sends k) sends (k + 1)

/-- Resync flag in force for the j-th record emitted from position k:
the running flag for j = 0, afterwards whatever the caller sent back
after the previous record. -/
def flagAt (skip : Bool) (sends : Nat → Bool) (k j : Nat) : Bool :=
  if j = 0 then skip else sends (k + (j - 1))

theorem pySliceFrom_nil (i : Int) : pySliceFrom [] i = [] := by
  simp [pySliceFrom]

theorem pySliceFrom_natSub (l : List UInt8) (s : Nat) (h : 8 ≤ s) :
    pySliceFrom l (((s : Int) - 8) * 4) = l.drop ((s - 8) * 4) := by
  rw [pySliceFrom, if_pos (by omega)]
  congr 1
  omega

theorem zebraGo_flatten (pairs : List (List UInt8 × List UInt8)) (skip : Bool)
    (sends : Nat → Bool) (k : Nat) (hv : ∀ pr ∈ pairs, ValidPair pr) :
    zebraGo (flattenPairs pairs) skip sends k = .ok (emitList pairs skip sends k) := by
  induction pairs generalizing skip k with
  | nil =>
    rw [flattenPairs, emitList, zebraGo]
    simp
  | cons pr rest ih =>
    obtain ⟨h32, hsz⟩ := hv pr (List.mem_cons_self pr rest)
    have hvr : ∀ q ∈ rest, ValidPair q := fun q hq => hv q (List.mem_cons_of_mem pr hq)
    rw [flattenPairs, emitList, List.append_assoc]
    have htake : (pr.1 ++ (pr.2 ++ flattenPairs rest)).take 32 = pr.1 :=
      List.take_left' h32
    have hdrop : (pr.1 ++ (pr.2 ++ flattenPairs rest)).drop 32 = pr.2 ++ flattenPairs rest :=
      List.drop_left' h32
    have hne : pr.1 ++ (pr.2 ++ flattenPairs rest) ≠ [] := by
      intro h
      have := congrArg List.length h
      simp [List.length_append, h32] at this
    rw [zebraGo, if_neg hne, htake, h32]
    simp only [Nat.lt_irrefl, if_false, hdrop]
    have hsz' : payloadSizeInt pr.1 = (pr.2.length : Int) := hsz
    rw [payloadSizeInt] at hsz'
    rw [hsz']
    have h0 : ¬ ((pr.2.length : Int) < 0) := by omega
    rw [if_neg h0]
    have htn : ((pr.2.length : Int)).toNat = pr.2.length := Int.toNat_natCast _
    rw [htn]
    have hlen2 : ¬ ((pr.2 ++ flattenPairs rest).length < pr.2.length) := by
      simp [List.length_append]
    rw [if_neg hlen2, List.take_left, List.drop_left, ih (sends k) (k + 1) hvr]
    rfl

theorem emitList_const_false (pairs : List (List UInt8 × List UInt8)) (k : Nat) :
    emitList pairs false (fun _ => false) k = pairs.map Prod.snd := by
  induction pairs generalizing k with
  | nil => rfl
  | cons pr rest ih => rw [emitList, if_neg (by simp), ih, List.map_cons]

theorem emitList_get? (pairs : List (List UInt8 × List UInt8)) (skip : Bool)
    (sends : Nat → Bool) (k j : Nat) :
    (emitList pairs skip sends k)[j]? =
      (pairs[j]?).map (fun pr =>
        if flagAt skip sends k j then
          pySliceFrom pr.2 ((((decodeSteeringBlock pr.1).skip : Int) - 8) * 4)
        else pr.2) := by
  induction pairs generalizing skip k j with
  | nil => simp [emitList]
  | cons pr rest ih =>
    cases j with
    | zero => simp [emitList, flagAt]
    | succ j' =>
      rw [emitList]
      simp only [List.getElem?_cons_succ]
      rw [ih (sends k) (k + 1) j']
      have hf : flagAt (sends k) sends (k + 1) j' = flagAt skip sends k (j' + 1) := by
        cases j' with
        | zero => simp [flagAt]
        | succ m =>
          simp only [flagAt, if_neg (Nat.succ_ne_zero m), if_neg (Nat.succ_ne_zero (m + 1))]
          congr 1
          omega
      rw [hf]

/-- C1: for every synthetic byte stream built by concatenating N valid
steering-block+payload pairs, the zebraio framer (driven with plain
next, so no resync request) yields exactly N physical-record chunks,
each equal to the corresponding payload, and the run ends with normal
termination (an ok result, not an error) when the stream is exhausted. -/
theorem physical_framing_roundtrip (pairs : List (List UInt8 × List UInt8))
    (hv : ∀ pr ∈ pairs, ValidPair pr) :
    zebraio (flattenPairs pairs) (fun _ => false) = .ok (pairs.map Prod.snd) := by
  rw [zebraio, zebraGo_flatten pairs false (fun _ => false) 0 hv, emitList_const_false]

/-- Witness for C1 at a concrete two-record stream. -/
theorem physical_framing_roundtrip_witness :
    (∀ pr ∈ ([([0, 0, 0, 0, 0, 0, 0, 0, 0, 0, 0, 0, 0, 0, 0, 0,
                0, 0, 0, 9, 0, 0, 0, 0, 0, 0, 0, 9, 0, 0, 0, 0], [1, 2, 3, 4]),
              ([0, 0, 0, 0, 0, 0, 0, 0, 0, 0, 0, 0, 0, 0, 0, 0,
                0, 0, 0, 9, 0, 0, 0, 0, 0, 0, 0, 9, 0, 0, 0, 0], [5, 6, 7, 8])] :
        List (List UInt8 × List UInt8)), ValidPair pr) ∧
      zebraio (flattenPairs
          ([([0, 0, 0, 0, 0, 0, 0, 0, 0, 0, 0, 0, 0, 0, 0, 0,
              0, 0, 0, 9, 0, 0, 0, 0, 0, 0, 0, 9, 0, 0, 0, 0], [1, 2, 3, 4]),
            ([0, 0, 0, 0, 0, 0, 0, 0, 0, 0, 0, 0, 0, 0, 0, 0,
              0, 0, 0, 9, 0, 0, 0, 0, 0, 0, 0, 9, 0, 0, 0, 0], [5, 6, 7, 8])] :
            List (List UInt8 × List UInt8))) (fun _ => false) =
        .ok (([([0, 0, 0, 0, 0, 0, 0, 0, 0, 0, 0, 0, 0, 0, 0, 0,
                 0, 0, 0, 9, 0, 0, 0, 0, 0, 0, 0, 9, 0, 0, 0, 0], [1, 2, 3, 4]),
               ([0, 0, 0, 0, 0, 0, 0, 0, 0, 0, 0, 0, 0, 0, 0, 0,
                 0, 0, 0, 9, 0, 0, 0, 0, 0, 0, 0, 9, 0, 0, 0, 0], [5, 6, 7, 8])] :
            List (List UInt8 × List UInt8)).map Prod.snd) :=
  ⟨by decide, physical_framing_roundtrip _ (by decide)⟩

/-- C3: when the caller requests resync after record k (and not after
record k+1), emission k+1 is the payload with its first (skip-8)*4 bytes
removed, where skip is the skip field of that record's steering block,
and emission k+2 reverts to the full payload. -/
theorem resync_offset (pairs : List (List UInt8 × List UInt8)) (sends : Nat → Bool)
    (k : Nat) (hdr1 p1 hdr2 p2 : List UInt8)
    (hv : ∀ pr ∈ pairs, ValidPair pr)
    (hsk : sends k = true) (hsk1 : sends (k + 1) = false)
    (h1 : pairs[k + 1]? = some (hdr1, p1)) (h2 : pairs[k + 2]? = some (hdr2, p2))
    (hskip : 8 ≤ (decodeSteeringBlock hdr1).skip) :
    ∃ out, zebraio (flattenPairs pairs) sends = .ok out ∧
      out[k + 1]? = some (p1.drop (((decodeSteeringBlock hdr1).skip - 8) * 4)) ∧
      out[k + 2]? = some p2 := by
  refine ⟨emitList pairs false sends 0,
    by rw [zebraio, zebraGo_flatten pairs false sends 0 hv], ?_, ?_⟩
  · rw [emitList_get?, h1]
    have hf1 : flagAt false sends 0 (k + 1) = true := by
      rw [flagAt, if_neg (by omega)]
      simpa using hsk
    rw [hf1]
    simp only [Option.map_some', if_true]
    rw [pySliceFrom_natSub p1 _ hskip]
  · rw [emitList_get?, h2]
    have hf2 : flagAt false sends 0 (k + 2) = false := by
      rw [flagAt, if_neg (by omega)]
      simpa using hsk1
    rw [hf2]
    simp

/-- Witness for C3: three valid records with resync requested after
record 0; record 1 has skip = 9, so its emission drops 4 bytes. -/
theorem resync_offset_witness :
    (∀ pr ∈ ([([0, 0, 0, 0, 0, 0, 0, 0, 0, 0, 0, 0, 0, 0, 0, 0,
                0, 0, 0, 9, 0, 0, 0, 0, 0, 0, 0, 9, 0, 0, 0, 0], [1, 2, 3, 4]),
              ([0, 0, 0, 0, 0, 0, 0, 0, 0, 0, 0, 0, 0, 0, 0, 0,
                0, 0, 0, 9, 0, 0, 0, 0, 0, 0, 0, 9, 0, 0, 0, 0], [5, 6, 7, 8]),
              ([0, 0, 0, 0, 0, 0, 0, 0, 0, 0, 0, 0, 0, 0, 0, 0,
                0, 0, 0, 9, 0, 0, 0, 0, 0, 0, 0, 9, 0, 0, 0, 0], [9, 9, 9, 9])] :
        List (List UInt8 × List UInt8)), ValidPair pr) ∧
      (∃ out, zebraio (flattenPairs
          ([([0, 0, 0, 0, 0, 0, 0, 0, 0, 0, 0, 0, 0, 0, 0, 0,
              0, 0, 0, 9, 0, 0, 0, 0, 0, 0, 0, 9, 0, 0, 0, 0], [1, 2, 3, 4]),
            ([0, 0, 0, 0, 0, 0, 0, 0, 0, 0, 0, 0, 0, 0, 0, 0,
              0, 0, 0, 9, 0, 0, 0, 0, 0, 0, 0, 9, 0, 0, 0, 0], [5, 6, 7, 8]),
            ([0, 0, 0, 0, 0, 0, 0, 0, 0, 0, 0, 0, 0, 0, 0, 0,
              0, 0, 0, 9, 0, 0, 0, 0, 0, 0, 0, 9, 0, 0, 0, 0], [9, 9, 9, 9])] :
            List (List UInt8 × List UInt8))) (fun n => n == 0) = .ok out ∧
        out[0 + 1]? = some (([5, 6, 7, 8] : List UInt8).drop
          (((decodeSteeringBlock [0, 0, 0, 0, 0, 0, 0, 0, 0, 0, 0, 0, 0, 0, 0, 0,
              0, 0, 0, 9, 0, 0, 0, 0, 0, 0, 0, 9, 0, 0, 0, 0]).skip - 8) * 4)) ∧
        out[0 + 2]? = some [9, 9, 9, 9]) :=
  ⟨by decide,
    resync_offset _ _ 0
      [0, 0, 0, 0, 0, 0, 0, 0, 0, 0, 0, 0, 0, 0, 0, 0,
       0, 0, 0, 9, 0, 0, 0, 0, 0, 0, 0, 9, 0, 0, 0, 0] [5, 6, 7, 8]
      [0, 0, 0, 0, 0, 0, 0, 0, 0, 0, 0, 0, 0, 0, 0, 0,
       0, 0, 0, 9, 0, 0, 0, 0, 0, 0, 0, 9, 0, 0, 0, 0] [9, 9, 9, 9]
      (by decide) (by decide) (by decide) (by decide) (by decide) (by decide)⟩

/-- C9 counterexample: a single steering block declaring
size*(fast_blocks+1) = 8, hence payload_size = 0.  The code emits one
empty chunk and terminates normally, rather than failing. -/
theorem zero_payload_counterexample :
    zebraio [0, 0, 0, 0, 0, 0, 0, 0, 0, 0, 0, 0, 0, 0, 0, 0,
             0, 0, 0, 8, 0, 0, 0, 0, 0, 0, 0, 9, 0, 0, 0, 0]
      (fun _ => false) = .ok [[]] := by
  simp +decide [zebraio, zebraGo, decodeSteeringBlock, beWordAt, byteAt, pySliceFrom,
    Except.map]

/-- C9 as amended: a negative computed payload size makes zebraio fail
(with the AssertionError of line 60, since the code has no explicit size
check), while a computed payload size of exactly zero emits an empty
chunk and continues with the rest of the stream. -/
theorem payload_size_amended (data : List UInt8) (skip : Bool) (sends : Nat → Bool)
    (k : Nat) (h32 : 32 ≤ data.length) :
    (payloadSizeInt (data.take 32) < 0 →
      zebraGo data skip sends k = .error .physicalSizeAssert) ∧
    (payloadSizeInt (data.take 32) = 0 →
      zebraGo data skip sends k =
        (zebraGo (data.drop 32) (sends k) sends (k + 1)).map (fun out => [] :: out)) := by
  have hne : data ≠ [] := by
    intro h
    rw [h] at h32
    simp at h32
  have hlt : ¬ ((data.take 32).length < 32) := by
    simp only [List.length_take]
    omega
  constructor
  · intro hneg
    rw [payloadSizeInt] at hneg
    rw [zebraGo, if_neg hne, if_neg hlt, if_pos hneg]
  · intro hzero
    rw [payloadSizeInt] at hzero
    rw [zebraGo, if_neg hne, if_neg hlt]
    simp only [hzero]
    norm_num
    cases skip with
    | false => simp
    | true => simp [pySliceFrom_nil]

/-- Witness for C9's amended claim at a 32-byte all-zero header, whose
computed payload size is (0*(0+1)-8)*4 = -32. -/
theorem payload_size_amended_witness :
    (32 ≤ ([0, 0, 0, 0, 0, 0, 0, 0, 0, 0, 0, 0, 0, 0, 0, 0, 0, 0, 0, 0, 0, 0,
      0, 0, 0, 0, 0, 0, 0, 0, 0, 0] : List UInt8).length) ∧
    ((payloadSizeInt (([0, 0, 0, 0, 0, 0, 0, 0, 0, 0, 0, 0, 0, 0, 0, 0, 0, 0, 0, 0,
        0, 0, 0, 0, 0, 0, 0, 0, 0, 0, 0, 0] : List UInt8).take 32) < 0 →
      zebraGo [0, 0, 0, 0, 0, 0, 0, 0, 0, 0, 0, 0, 0, 0, 0, 0, 0, 0, 0, 0, 0, 0,
        0, 0, 0, 0, 0, 0, 0, 0, 0, 0] false (fun _ => false) 0 =
        .error .physicalSizeAssert) ∧
    (payloadSizeInt (([0, 0, 0, 0, 0, 0, 0, 0, 0, 0, 0, 0, 0, 0, 0, 0, 0, 0, 0, 0,
        0, 0, 0, 0, 0, 0, 0, 0, 0, 0, 0, 0] : List UInt8).take 32) = 0 →
      zebraGo [0, 0, 0, 0, 0, 0, 0, 0, 0, 0, 0, 0, 0, 0, 0, 0, 0, 0, 0, 0, 0, 0,
        0, 0, 0, 0, 0, 0, 0, 0, 0, 0] false (fun _ => false) 0 =
        (zebraGo (([0, 0, 0, 0, 0, 0, 0, 0, 0, 0, 0, 0, 0, 0, 0, 0, 0, 0, 0, 0,
          0, 0, 0, 0, 0, 0, 0, 0, 0, 0, 0, 0] : List UInt8).drop 32)
            ((fun _ => false) 0) (fun _ => false) (0 + 1)).map (fun out => [] :: out))) :=
  ⟨by decide, payload_size_amended _ false (fun _ => false) 0 (by decide)⟩

/-- A buffer whose first four bytes are the zero word decodes to a
Control whose size field is zero (the size word is exactly those bytes),
so a control word reaching the dispatch has a nonzero size: a zero head
word is always absorbed as alignment padding first. -/
theorem size_zero_of_take4_zeros (c : List UInt8) (h : c.take 4 = zeros4) :
    (decodeControl c).size = 0 := by
  cases c with
  | nil => simp [zeros4] at h
  | cons b0 c1 =>
    cases c1 with
    | nil => simp [zeros4] at h
    | cons b1 c2 =>
      cases c2 with
      | nil => simp [zeros4] at h
      | cons b2 c3 =>
        cases c3 with
        | nil => simp [zeros4] at h
        | cons b3 t =>
          simp only [List.take_succ_cons, List.take_zero, zeros4, List.cons.injEq,
            and_true] at h
          obtain ⟨h0, h1, h2, h3⟩ := h
          simp [decodeControl, beWordAt, byteAt, h0, h1, h2, h3]

/-- C4: a normal logical record (type 2, 3 or 4) whose candidate fits the
buffered chunk is emitted as bytes [48, 48+(size-10)*4) of the buffer
with the first pilotSkipTo*4 bytes removed, and decoding continues from
the buffer advanced past exactly 48+(size-10)*4 bytes. -/
theorem normal_record_emission (c : List UInt8)
    (hty : (decodeControl c).type = 2 ∨ (decodeControl c).type = 3 ∨
      (decodeControl c).type = 4)
    (hsz : 10 ≤ (decodeControl c).size)
    (hlen : 48 + ((decodeControl c).size - 10) * 4 ≤ c.length) :
    iter_logical_records [c] =
      (ilrLoop true [] (c.drop (48 + ((decodeControl c).size - 10) * 4))).map
        (fun rest =>
          (((c.drop 48).take (((decodeControl c).size - 10) * 4)).drop
            (pilotSkipTo c * 4)) :: rest) := by
  have hz : ¬ (c.take 4 = zeros4) := by
    intro h
    have := size_zero_of_take4_zeros c h
    omega
  have h8 : ¬ (c.length < 8) := by omega
  have h48 : ¬ (c.length < 48) := by omega
  have hs : ¬ ((((decodeControl c).size : Int) - 10) * 4 < 0 ∨
      ((c.length : Int) < 48 + (((decodeControl c).size : Int) - 10) * 4)) := by
    push_neg
    constructor <;> omega
  have hconv : ((((decodeControl c).size : Int) - 10) * 4).toNat =
      ((decodeControl c).size - 10) * 4 := by omega
  rw [iter_logical_records, ilrLoop_top_pull _ _ _ (by simp), List.nil_append,
    ilrLoop_normal_nil c hz h8 hty h48 hs, hconv]

/-- Concrete 56-byte chunk holding one complete type-2 record: control
word size = 12 and type = 2, an all-zero 40-byte pilot, and an 8-byte
candidate payload.  Its length is exactly size*4+8, two bytes below the
refill target size*4+10. -/
def chunk56 : List UInt8 :=
  [0, 0, 0, 12, 0, 0, 0, 2] ++ List.replicate 40 0 ++ [1, 2, 3, 4, 5, 6, 7, 8]

/-- Witness for C4 at the concrete chunk chunk56. -/
theorem normal_record_emission_witness :
    ((decodeControl chunk56).type = 2 ∨ (decodeControl chunk56).type = 3 ∨
      (decodeControl chunk56).type = 4) ∧
    10 ≤ (decodeControl chunk56).size ∧
    48 + ((decodeControl chunk56).size - 10) * 4 ≤ chunk56.length ∧
    iter_logical_records [chunk56] =
      (ilrLoop true [] (chunk56.drop (48 + ((decodeControl chunk56).size - 10) * 4))).map
        (fun rest =>
          (((chunk56.drop 48).take (((decodeControl chunk56).size - 10) * 4)).drop
            (pilotSkipTo chunk56 * 4)) :: rest) :=
  ⟨by decide, by decide, by decide,
    normal_record_emission chunk56 (by decide) (by decide) (by decide)⟩

/-- C5 counterexample: a control word with type 6 and size 3 is not
treated as padding; the code raises the unknown-record-type ValueError
instead of discarding 16 bytes and contributing zero records. -/
theorem padding_type6_counterexample :
    iter_logical_records [[0, 0, 0, 3, 0, 0, 0, 6]] = .error .unknownRecordType := by
  rw [iter_logical_records, ilrLoop_top_pull _ _ _ (by decide), List.nil_append,
    ilrLoop_unknown _ _ (by decide) (by decide) (by decide) (by decide) (by decide)
      (by decide) (by decide)]

/-- C5 as amended: only type 5 is treated as a padding record; with
size at least 1 (always the case at dispatch, since a zero size word
is absorbed as alignment padding beforehand) it discards exactly
8+(size-1)*4 bytes from the buffer head, emits nothing and restarts the
decode loop; type 6 instead falls through to the unknown-type failure. -/
theorem padding_discard_amended (c : List UInt8)
    (ht : (decodeControl c).type = 5) (hsz : 1 ≤ (decodeControl c).size)
    (h8 : 8 ≤ c.length) :
    iter_logical_records [c] =
      ilrLoop true [] (c.drop (8 + ((decodeControl c).size - 1) * 4)) := by
  have hz : ¬ (c.take 4 = zeros4) := by
    intro h
    have := size_zero_of_take4_zeros c h
    omega
  rw [iter_logical_records, ilrLoop_top_pull _ _ _ (by simp), List.nil_append,
    ilrLoop_pad_nil c hz (by omega) ht hsz]

/-- Witness for C5's amended claim: type 5 with size 3 discards exactly
8+(3-1)*4 = 16 bytes. -/
theorem padding_discard_amended_witness :
    (decodeControl [0, 0, 0, 3, 0, 0, 0, 5]).type = 5 ∧
    1 ≤ (decodeControl [0, 0, 0, 3, 0, 0, 0, 5]).size ∧
    8 ≤ ([0, 0, 0, 3, 0, 0, 0, 5] : List UInt8).length ∧
    iter_logical_records [[0, 0, 0, 3, 0, 0, 0, 5]] =
      ilrLoop true [] (([0, 0, 0, 3, 0, 0, 0, 5] : List UInt8).drop
        (8 + ((decodeControl [0, 0, 0, 3, 0, 0, 0, 5]).size - 1) * 4)) :=
  ⟨by decide, by decide, by decide,
    padding_discard_amended _ (by decide) (by decide) (by decide)⟩

/-- C6 counterexample: a single 4-byte chunk [0,0,0,1] with the source
then exhausted leaves 4 bytes buffered (at least 2, so no further pull
is attempted) and control-word decode raises ValueError, rather than the
logical sequence terminating normally. -/
theorem short_buffer_counterexample :
    iter_logical_records [[0, 0, 0, 1]] = .error .shortControlWord := by
  rw [iter_logical_records, ilrLoop_top_pull _ _ _ (by decide), List.nil_append,
    ilrLoop_short _ _ (by decide) (by decide)]

/-- C6 as amended: the assembler refills only when fewer than 2 (not 8)
bytes are buffered, pulling a single chunk; with an exhausted source and
an empty buffer the sequence ends normally, but a leftover of 2 to 7
bytes fails at control-word decode instead of terminating; and the
pre-dispatch refill targets size*4+10 (not size*4+8) bytes yet source
exhaustion there does not end the sequence: dispatch proceeds and can
still emit a record from a buffer of exactly size*4+8 bytes. -/
theorem buffering_behavior_amended :
    iter_logical_records [] = .ok [] ∧
    (∀ buf : List UInt8, 2 ≤ buf.length → buf.length < 8 → buf.take 4 ≠ zeros4 →
      ilrLoop true [] buf = .error .shortControlWord) ∧
    iter_logical_records [[0, 0, 0, 12, 0, 0, 0, 2, 0, 0, 0, 0, 0, 0, 0, 0, 0, 0, 0, 0,
        0, 0, 0, 0, 0, 0, 0, 0, 0, 0, 0, 0, 0, 0, 0, 0, 0, 0, 0, 0, 0, 0, 0, 0,
        0, 0, 0, 0, 1, 2, 3, 4, 5, 6, 7, 8]] = .ok [[1, 2, 3, 4, 5, 6, 7, 8]] := by
  refine ⟨by rw [iter_logical_records, ilrLoop_top_nil _ (by decide)], ?_, ?_⟩
  · intro buf hge hlt hz
    rw [ilrLoop_top_go _ _ (by omega), ilrLoop_short _ _ hz hlt]
  · rw [iter_logical_records, ilrLoop_top_pull _ _ _ (by decide), List.nil_append,
      ilrLoop_normal_nil _ (by decide) (by decide) (by decide) (by decide) (by decide)]
    rw [show (([0, 0, 0, 12, 0, 0, 0, 2, 0, 0, 0, 0, 0, 0, 0, 0, 0, 0, 0, 0,
        0, 0, 0, 0, 0, 0, 0, 0, 0, 0, 0, 0, 0, 0, 0, 0, 0, 0, 0, 0, 0, 0, 0, 0,
        0, 0, 0, 0, 1, 2, 3, 4, 5, 6, 7, 8] : List UInt8).drop
          (48 + ((((decodeControl [0, 0, 0, 12, 0, 0, 0, 2, 0, 0, 0, 0, 0, 0, 0, 0,
            0, 0, 0, 0, 0, 0, 0, 0, 0, 0, 0, 0, 0, 0, 0, 0, 0, 0, 0, 0, 0, 0, 0, 0,
            0, 0, 0, 0, 0, 0, 0, 0, 1, 2, 3, 4, 5, 6, 7, 8]).size : Int) - 10) *
              4).toNat)) = ([] : List UInt8) from by decide]
    rw [ilrLoop_top_nil _ (by decide)]
    decide

/-- Witness for C6's amended claim at the 4-byte leftover [0,0,0,1]. -/
theorem buffering_behavior_amended_witness :
    2 ≤ ([0, 0, 0, 1] : List UInt8).length ∧
    ([0, 0, 0, 1] : List UInt8).length < 8 ∧
    ([0, 0, 0, 1] : List UInt8).take 4 ≠ zeros4 ∧
    ilrLoop true [] [0, 0, 0, 1] = .error .shortControlWord :=
  ⟨by decide, by decide, by decide,
    buffering_behavior_amended.2.1 _ (by decide) (by decide) (by decide)⟩

/-- C7: prepending a 4-byte zero word (one-word alignment padding) to
the first chunk does not change the decoded sequence of logical records:
the zero word is dropped at the top of the decode loop.  The hypothesis
asks only that at least 2 bytes follow the zero word, which every buffer
containing a valid record satisfies. -/
theorem padding_absorption (b : List UInt8) (cs : List (List UInt8))
    (h : 2 ≤ b.length) :
    iter_logical_records ((zeros4 ++ b) :: cs) = iter_logical_records (b :: cs) := by
  rw [iter_logical_records, iter_logical_records,
    ilrLoop_top_pull _ _ _ (by simp), ilrLoop_top_pull _ _ _ (by simp),
    List.nil_append, List.nil_append,
    ilrLoop_strip _ _ (List.take_left' (by rfl)),
    show (zeros4 ++ b).drop 4 = b from List.drop_left' (by rfl),
    ilrLoop_top_go _ _ (by omega)]

/-- Witness for C7 at a 2-byte buffer. -/
theorem padding_absorption_witness :
    2 ≤ ([7, 7] : List UInt8).length ∧
    iter_logical_records [zeros4 ++ [7, 7]] = iter_logical_records [[7, 7]] :=
  ⟨by decide, padding_absorption [7, 7] [] (by decide)⟩

/-- C8: a control word whose type lies outside {1,2,3,4,5,6} fails with
the unknown-record-type ValueError and the logical sequence halts with
no partial record (the run result is that error alone).  The size
hypothesis records that a decoded control word always has a nonzero
size word, a zero head word having been absorbed as padding first. -/
theorem unknown_record_type_fails (c : List UInt8) (cs : List (List UInt8))
    (ht : (decodeControl c).type ∉ ([1, 2, 3, 4, 5, 6] : List Nat))
    (hsz : 1 ≤ (decodeControl c).size) (h8 : 8 ≤ c.length) :
    iter_logical_records (c :: cs) = .error .unknownRecordType := by
  have hz : ¬ (c.take 4 = zeros4) := by
    intro h
    have := size_zero_of_take4_zeros c h
    omega
  have ht' : (decodeControl c).type ≠ 1 ∧ (decodeControl c).type ≠ 2 ∧
      (decodeControl c).type ≠ 3 ∧ (decodeControl c).type ≠ 4 ∧
      (decodeControl c).type ≠ 5 ∧ (decodeControl c).type ≠ 6 := by
    simpa using ht
  rw [iter_logical_records, ilrLoop_top_pull _ _ _ (by simp), List.nil_append,
    ilrLoop_unknown _ _ hz (by omega) ht'.2.1 ht'.2.2.1 ht'.2.2.2.1 ht'.2.2.2.2.1 ht'.1]

/-- Witness for C8 at a type-7 control word. -/
theorem unknown_record_type_fails_witness :
    (decodeControl [0, 0, 0, 1, 0, 0, 0, 7]).type ∉ ([1, 2, 3, 4, 5, 6] : List Nat) ∧
    1 ≤ (decodeControl [0, 0, 0, 1, 0, 0, 0, 7]).size ∧
    8 ≤ ([0, 0, 0, 1, 0, 0, 0, 7] : List UInt8).length ∧
    iter_logical_records [[0, 0, 0, 1, 0, 0, 0, 7]] = .error .unknownRecordType :=
  ⟨by decide, by decide, by decide,
    unknown_record_type_fails _ [] (by decide) (by decide) (by decide)⟩

/-- A description of one well-formable bank segment of a logical-record
payload: the 4 IOControl bytes, the inter-bank skip region, the 36-byte
bank header and the payload bytes. -/
structure BankSpec where
  ioc4 : List UInt8
  skipB : List UInt8
  hdr36 : List UInt8
  payload : List UInt8
deriving DecidableEq, Repr

/-- The bytes of one bank segment, in stream order. -/
def BankSpec.bytes (s : BankSpec) : List UInt8 :=
  s.ioc4 ++ (s.skipB ++ (s.hdr36 ++ s.payload))

/-- Well-formedness of a bank segment: 4 IOControl bytes declaring a size
of at least 12, a skip region of exactly (size-12)*4 bytes, a 36-byte
header, and a payload of exactly data*4 bytes. -/
def BankSpec.wf (s : BankSpec) : Prop :=
  s.ioc4.length = 4 ∧ 12 ≤ (decodeIOControl s.ioc4).size ∧
  s.skipB.length = ((decodeIOControl s.ioc4).size - 12) * 4 ∧
  s.hdr36.length = 36 ∧ s.payload.length = (decodeBank s.hdr36).data * 4

instance (s : BankSpec) : Decidable s.wf := by
  unfold BankSpec.wf
  infer_instance

/-- Concatenation of bank segments into one logical-record payload. -/
def segsBytes : List BankSpec → List UInt8
  | [] => []
  | s :: rest => s.bytes ++ segsBytes rest

theorem segsBytes_length (specs : List BankSpec) (hwf : ∀ s ∈ specs, s.wf) :
    (segsBytes specs).length =
      (specs.map fun s =>
        4 + ((decodeIOControl s.ioc4).size - 12) * 4 + 36 +
          (decodeBank s.hdr36).data * 4).sum := by
  induction specs with
  | nil => rfl
  | cons s rest ih =>
    obtain ⟨hi4, hsz, hskip, h36, hpay⟩ := hwf s (List.mem_cons_self s rest)
    rw [segsBytes, List.map_cons, List.sum_cons, List.length_append,
      ih (fun q hq => hwf q (List.mem_cons_of_mem s hq)), BankSpec.bytes]
    simp only [List.length_append, hi4, hskip, h36, hpay]
    omega

theorem segsBytes_count_le (specs : List BankSpec) (hwf : ∀ s ∈ specs, s.wf) :
    specs.length ≤ (segsBytes specs).length := by
  induction specs with
  | nil => simp [segsBytes]
  | cons s rest ih =>
    obtain ⟨hi4, hsz, hskip, h36, hpay⟩ := hwf s (List.mem_cons_self s rest)
    have := ih (fun q hq => hwf q (List.mem_cons_of_mem s hq))
    rw [segsBytes, BankSpec.bytes]
    simp only [List.length_append, List.length_cons, hi4]
    omega

theorem iterBanksGo_segs (specs : List BankSpec) :
    ∀ (pre : List UInt8) (fuel : Nat), (∀ s ∈ specs, s.wf) → specs.length < fuel →
    iterBanksGo (pre ++ segsBytes specs) pre.length fuel =
      .ok (specs.map fun s => (decodeBank s.hdr36, s.payload)) := by
  induction specs with
  | nil =>
    intro pre fuel hwf hfuel
    cases fuel with
    | zero => omega
    | succ f =>
      rw [segsBytes, List.append_nil, iterBanksGo, if_pos (Nat.le_refl _)]
      rfl
  | cons s rest ih =>
    intro pre fuel hwf hfuel
    obtain ⟨hi4, hsz, hskip, h36, hpay⟩ := hwf s (List.mem_cons_self s rest)
    have hwr : ∀ q ∈ rest, q.wf := fun q hq => hwf q (List.mem_cons_of_mem s hq)
    cases fuel with
    | zero => omega
    | succ f =>
      have hassoc : pre ++ segsBytes (s :: rest) =
          pre ++ (s.ioc4 ++ (s.skipB ++ (s.hdr36 ++ (s.payload ++ segsBytes rest)))) := by
        rw [segsBytes, BankSpec.bytes]
        simp [List.append_assoc]
      rw [hassoc]
      have hlen : (pre ++ (s.ioc4 ++ (s.skipB ++ (s.hdr36 ++
          (s.payload ++ segsBytes rest))))).length =
          pre.length + 4 + s.skipB.length + 36 + s.payload.length +
            (segsBytes rest).length := by
        simp only [List.length_append, hi4, h36]
        omega
      have h1 : ¬ ((pre ++ (s.ioc4 ++ (s.skipB ++ (s.hdr36 ++
          (s.payload ++ segsBytes rest))))).length ≤ pre.length) := by
        rw [hlen]
        omega
      have h3 : ¬ ((pre.length + 4 : Int) +
          (((decodeIOControl s.ioc4).size : Int) - 12) * 4 < 0) := by omega
      have htn : ((pre.length + 4 : Int) +
          (((decodeIOControl s.ioc4).size : Int) - 12) * 4).toNat =
          pre.length + 4 + ((decodeIOControl s.ioc4).size - 12) * 4 := by omega
      have hdrop2 : (pre ++ (s.ioc4 ++ (s.skipB ++ (s.hdr36 ++
          (s.payload ++ segsBytes rest))))).drop
            (pre.length + 4 + ((decodeIOControl s.ioc4).size - 12) * 4) =
          s.hdr36 ++ (s.payload ++ segsBytes rest) := by
        rw [show pre ++ (s.ioc4 ++ (s.skipB ++ (s.hdr36 ++ (s.payload ++ segsBytes rest)))) =
            (pre ++ s.ioc4 ++ s.skipB) ++ (s.hdr36 ++ (s.payload ++ segsBytes rest)) from by
          simp [List.append_assoc]]
        rw [List.drop_left' (by simp only [List.length_append, hi4, hskip])]
      have hdrop3 : (pre ++ (s.ioc4 ++ (s.skipB ++ (s.hdr36 ++
          (s.payload ++ segsBytes rest))))).drop
            (pre.length + 4 + ((decodeIOControl s.ioc4).size - 12) * 4 + 36) =
          s.payload ++ segsBytes rest := by
        rw [show pre ++ (s.ioc4 ++ (s.skipB ++ (s.hdr36 ++ (s.payload ++ segsBytes rest)))) =
            (pre ++ s.ioc4 ++ s.skipB ++ s.hdr36) ++ (s.payload ++ segsBytes rest) from by
          simp [List.append_assoc]]
        rw [List.drop_left' (by simp only [List.length_append, hi4, hskip, h36])]
      have hrec : pre ++ (s.ioc4 ++ (s.skipB ++ (s.hdr36 ++ (s.payload ++ segsBytes rest)))) =
          (pre ++ s.bytes) ++ segsBytes rest := by
        rw [BankSpec.bytes]
        simp [List.append_assoc]
      have hplen : (pre ++ s.bytes).length =
          pre.length + 4 + ((decodeIOControl s.ioc4).size - 12) * 4 + 36 +
            (decodeBank s.hdr36).data * 4 := by
        rw [BankSpec.bytes]
        simp only [List.length_append, hi4, hskip, h36, hpay]
        omega
      rw [iterBanksGo]
      simp only [if_neg h1, List.drop_left, List.take_left' hi4, hi4, if_neg h3, htn,
        hdrop2, List.take_left' h36, h36, hdrop3, List.take_left' hpay, hpay,
        Nat.lt_irrefl, if_false, ne_eq, not_true_eq_false, not_false_eq_true, ite_false,
        ite_true]
      rw [hrec, ← hplen, ih (pre ++ s.bytes) f hwr (by simpa using hfuel)]
      rfl

/-- C2: a logical-record payload concatenated from M well-formed bank
segments decodes to exactly M (Bank header, payload) pairs in order, the
i-th payload being the declared data*4 bytes, the cursor stopping exactly
at the record length; and that length is the sum over the banks of
4 + (IOControl.size-12)*4 + 36 + data*4 bytes. -/
theorem bank_chain_exhaustion (specs : List BankSpec) (hwf : ∀ s ∈ specs, s.wf) :
    iter_banks (segsBytes specs) =
      .ok (specs.map fun s => (decodeBank s.hdr36, s.payload)) ∧
    (segsBytes specs).length =
      (specs.map fun s =>
        4 + ((decodeIOControl s.ioc4).size - 12) * 4 + 36 +
          (decodeBank s.hdr36).data * 4).sum := by
  constructor
  · rw [iter_banks]
    have hcount := segsBytes_count_le specs hwf
    have := iterBanksGo_segs specs [] ((segsBytes specs).length + 1) hwf (by omega)
    simpa using this
  · exact segsBytes_length specs hwf

/-- Concrete single bank segment: IOControl size 12 (no skip region),
bank named ABCD with one data word, payload [9,9,9,9]. -/
def bankSpec1 : BankSpec :=
  { ioc4 := [0, 0, 0, 12]
    skipB := []
    hdr36 := List.replicate 16 0 ++ ([65, 66, 67, 68] ++
      (List.replicate 8 0 ++ ([0, 0, 0, 1] ++ List.replicate 4 0)))
    payload := [9, 9, 9, 9] }

/-- Witness for C2 at the single concrete bank segment bankSpec1. -/
theorem bank_chain_exhaustion_witness :
    (∀ s ∈ [bankSpec1], s.wf) ∧
    (iter_banks (segsBytes [bankSpec1]) =
      .ok ([bankSpec1].map fun s => (decodeBank s.hdr36, s.payload)) ∧
    (segsBytes [bankSpec1]).length =
      ([bankSpec1].map fun s =>
        4 + ((decodeIOControl s.ioc4).size - 12) * 4 + 36 +
          (decodeBank s.hdr36).data * 4).sum) :=
  ⟨by decide, bank_chain_exhaustion [bankSpec1] (by decide)⟩

/-- C10: the decorator name profile applied to iter_banks on line 141 of
zebra.py is bound by no top-level statement of the module, and executing
the module top level (as any import or call of its functions requires)
stops with NameError at that decorator lookup, before iter_banks or
parse is ever bound. -/
theorem module_load_name_error :
    ("profile" ∉ moduleBinds zebraModule) ∧
    loadModule zebraModule [] = .error "profile" := by
  constructor
  · decide
  · decide

end Zebra
